import Mathlib

set_option maxHeartbeats 1000000

namespace FlowCapture

/-!
Shallow embedding of the orchestration core of the flow-capture repository:
the lazy conversion-engine loader (ffmpegService.ts), the conversion
pipeline (convertWebmToMP4 / convertWebmToGIF), the frame-source locator
(contentScript.ts / fullCanvasCapture.ts), the viewport-fitting strategy
chain and recording finalization (fullCanvasCapture.ts, the injected
recording scripts), the capture entry point (startCapture), and the
content-script download relay (contents/figma.ts).
-/

/-! ### Conversion-engine loader, promise-memoized version
(ffmpegService.ts, second document, lines 226–441: module-level variables
ffmpeg / ffmpegLoadPromise / ffmpegLoaded / ffmpegError / lastProgress). -/

structure LoaderState where
  ffmpeg : Option Nat
  loadPromise : Option Nat
  loaded : Bool
  error : Option String
  lastProgress : Nat
  attempts : Nat
  nextPromiseId : Nat
deriving Repr, DecidableEq

def initLoaderState : LoaderState :=
  { ffmpeg := none, loadPromise := none, loaded := false, error := none,
    lastProgress := 0, attempts := 0, nextPromiseId := 0 }

inductive EnsureResult where
  | handle (h : Nat)
  | thrown (e : String)
  | promise (p : Nat)
deriving Repr, DecidableEq

/-- ensureFFmpeg (ffmpegService.ts lines 366–441): return the memoized
instance when loaded, rethrow a sticky error, return the in-flight promise
when one exists, otherwise start a new load attempt and memoize its
promise.  `attempts` is a ghost counter of started load attempts;
`nextPromiseId` names the promise the attempt creates. -/
def ensureFFmpeg (s : LoaderState) : LoaderState × EnsureResult :=
  match s.loaded, s.ffmpeg with
  | true, some h => (s, .handle h)
  | _, _ =>
    match s.error with
    | some e => (s, .thrown e)
    | none =>
      match s.loadPromise with
      | some p => (s, .promise p)
      | none =>
        ({ s with loadPromise := some s.nextPromiseId,
                  attempts := s.attempts + 1,
                  nextPromiseId := s.nextPromiseId + 1 },
         .promise s.nextPromiseId)

/-- Successful completion of the load-attempt body (lines 407–430): the
created instance is stored, `ffmpegLoaded` set, `ffmpegError` cleared. -/
def loadSucceed (s : LoaderState) (h : Nat) : LoaderState :=
  { s with ffmpeg := some h, loaded := true, error := none }

/-- Failed load attempt (lines 431–437): stores the cause and discards the
in-flight promise; `ffmpegLoaded` stays false. -/
def loadFail (s : LoaderState) (e : String) : LoaderState :=
  { s with error := some e, loadPromise := none }

/-- resetFFmpegLoader (lines 354–361): clears instance, promise, loaded
flag, stored error and progress. -/
def resetFFmpegLoader (s : LoaderState) : LoaderState :=
  { s with ffmpeg := none, loadPromise := none, loaded := false,
           error := none, lastProgress := 0 }

/-- N sequential calls to ensureFFmpeg (the single-threaded event loop
serializes concurrent callers). -/
def ensureCalls : Nat → LoaderState → LoaderState × List EnsureResult
  | 0, s => (s, [])
  | n + 1, s =>
    let t := ensureFFmpeg s
    let u := ensureCalls n t.1
    (u.1, t.2 :: u.2)

/-- Awaiting a caller-visible result against a resolution table for the
memoized promises. -/
def awaitResult (res : Nat → Except String Nat) : EnsureResult → Except String Nat
  | .handle h => .ok h
  | .thrown e => .error e
  | .promise p => res p

/-! ### Conversion-engine loader, polling version
(ffmpegService.ts, first document, lines 9–96: flags ffmpegLoading /
ffmpegLoaded and a polling wait loop instead of a memoized promise). -/

structure PollState where
  ffmpeg : Option Nat
  loading : Bool
  loaded : Bool
  attempts : Nat
deriving Repr, DecidableEq

def initPollState : PollState :=
  { ffmpeg := none, loading := false, loaded := false, attempts := 0 }

inductive PollResult where
  | handle (h : Nat)
  | waits
  | starts
deriving Repr, DecidableEq

/-- ensureFFmpeg, polling version (lines 24–48): return memoized instance
if loaded; if a load is in flight, enter the polling wait; otherwise set
`ffmpegLoading` and start the single underlying load attempt. -/
def pollEnsureFFmpeg (s : PollState) : PollState × PollResult :=
  match s.loaded, s.ffmpeg with
  | true, some h => (s, .handle h)
  | _, _ =>
    if s.loading then (s, .waits)
    else ({ s with loading := true, attempts := s.attempts + 1 }, .starts)

/-- Successful load in the polling version (lines 54, 88–90). -/
def pollLoadSucceed (s : PollState) (h : Nat) : PollState :=
  { s with ffmpeg := some h, loaded := true, loading := false }

/-- Failed load attempt in the polling version (lines 91–95): the catch
block clears `ffmpegLoading` and rethrows to the caller that started the
attempt; no cause is stored — this variant has no error variable and no
reset function. -/
def pollLoadFail (s : PollState) : PollState :=
  { s with loading := false }

/-- One polling tick of a waiting caller (lines 32–37): resolves the
module-level instance once loaded. -/
def pollWaiterCheck (s : PollState) : Option Nat :=
  match s.loaded, s.ffmpeg with
  | true, some h => some h
  | _, _ => none

def pollEnsureCalls : Nat → PollState → PollState × List PollResult
  | 0, s => (s, [])
  | n + 1, s =>
    let t := pollEnsureFFmpeg s
    let u := pollEnsureCalls n t.1
    (u.1, t.2 :: u.2)

/-! ### Lemmas about the loader -/

theorem ensureFFmpeg_inflight {s : LoaderState} {p : Nat}
    (hld : s.loaded = false) (herr : s.error = none)
    (hlp : s.loadPromise = some p) :
    ensureFFmpeg s = (s, .promise p) := by
  obtain ⟨f, lp, ld, er, pr, a, np⟩ := s
  simp only at hld herr hlp
  subst hld herr hlp
  cases f <;> rfl

theorem ensureCalls_inflight {s : LoaderState} {p : Nat} (n : Nat)
    (hld : s.loaded = false) (herr : s.error = none)
    (hlp : s.loadPromise = some p) :
    ensureCalls n s = (s, List.replicate n (.promise p)) := by
  induction n with
  | zero => rfl
  | succ n ih =>
    simp only [ensureCalls, ensureFFmpeg_inflight hld herr hlp, ih,
      List.replicate_succ]

theorem ensureFFmpeg_fresh {s : LoaderState}
    (hld : s.loaded = false) (herr : s.error = none)
    (hlp : s.loadPromise = none) :
    ensureFFmpeg s =
      ({ s with loadPromise := some s.nextPromiseId,
                attempts := s.attempts + 1,
                nextPromiseId := s.nextPromiseId + 1 },
       .promise s.nextPromiseId) := by
  obtain ⟨f, lp, ld, er, pr, a, np⟩ := s
  simp only at hld herr hlp
  subst hld herr hlp
  cases f <;> rfl

theorem pollEnsureFFmpeg_fresh {t : PollState}
    (hld : t.loaded = false) (hlg : t.loading = false) :
    pollEnsureFFmpeg t =
      ({ t with loading := true, attempts := t.attempts + 1 }, .starts) := by
  obtain ⟨f, lg, ld, a⟩ := t
  simp only at hld hlg
  subst hld hlg
  cases f <;> rfl

theorem pollEnsureFFmpeg_wait {t : PollState}
    (hld : t.loaded = false) (hlg : t.loading = true) :
    pollEnsureFFmpeg t = (t, .waits) := by
  obtain ⟨f, lg, ld, a⟩ := t
  simp only at hld hlg
  subst hld hlg
  cases f <;> rfl

theorem pollEnsureCalls_loading {t : PollState} (n : Nat)
    (hld : t.loaded = false) (hlg : t.loading = true) :
    pollEnsureCalls n t = (t, List.replicate n .waits) := by
  induction n with
  | zero => rfl
  | succ n ih =>
    simp only [pollEnsureCalls, pollEnsureFFmpeg_wait hld hlg, ih,
      List.replicate_succ]

/-- C1: N concurrent callers of the loader before resolution trigger exactly
one underlying load attempt, and every caller resolves to the identical
engine handle.  In the promise-memoized loader all N callers receive the
same memoized promise and hence the same resolved handle; in the polling
loader the first call starts the one attempt, the other N−1 callers enter
the polling wait, and every waiter resolves the single stored instance. -/
theorem ensureFFmpeg_single_attempt_shared_handle (n : Nat) (s : LoaderState)
    (t : PollState) (hn : 1 ≤ n)
    (hld : s.loaded = false) (herr : s.error = none)
    (hlp : s.loadPromise = none)
    (htd : t.loaded = false) (htg : t.loading = false) :
    ((ensureCalls n s).1.attempts = s.attempts + 1 ∧
      (ensureCalls n s).2 = List.replicate n (.promise s.nextPromiseId) ∧
      ∀ (res : Nat → Except String Nat) (h : Nat),
        res s.nextPromiseId = .ok h →
        ∀ r ∈ (ensureCalls n s).2, awaitResult res r = .ok h) ∧
    ((pollEnsureCalls n t).1.attempts = t.attempts + 1 ∧
      (pollEnsureCalls n t).2 = .starts :: List.replicate (n - 1) .waits ∧
      ∀ h : Nat,
        pollWaiterCheck (pollLoadSucceed (pollEnsureCalls n t).1 h) = some h) := by
  obtain ⟨m, rfl⟩ : ∃ m, n = m + 1 :=
    ⟨n - 1, (Nat.succ_pred_eq_of_pos hn).symm⟩
  have hstep := ensureFFmpeg_fresh hld herr hlp
  have hrest :
      ensureCalls m { s with loadPromise := some s.nextPromiseId,
                             attempts := s.attempts + 1,
                             nextPromiseId := s.nextPromiseId + 1 } =
        ({ s with loadPromise := some s.nextPromiseId,
                  attempts := s.attempts + 1,
                  nextPromiseId := s.nextPromiseId + 1 },
         List.replicate m (.promise s.nextPromiseId)) :=
    ensureCalls_inflight m hld herr rfl
  have hmain : ensureCalls (m + 1) s =
      ({ s with loadPromise := some s.nextPromiseId,
                attempts := s.attempts + 1,
                nextPromiseId := s.nextPromiseId + 1 },
       List.replicate (m + 1) (.promise s.nextPromiseId)) := by
    simp only [ensureCalls, hstep, hrest, List.replicate_succ]
  have hpstep := pollEnsureFFmpeg_fresh htd htg
  have hprest :
      pollEnsureCalls m { t with loading := true, attempts := t.attempts + 1 } =
        ({ t with loading := true, attempts := t.attempts + 1 },
         List.replicate m .waits) :=
    pollEnsureCalls_loading m htd rfl
  have hpmain : pollEnsureCalls (m + 1) t =
      ({ t with loading := true, attempts := t.attempts + 1 },
       .starts :: List.replicate m .waits) := by
    simp only [pollEnsureCalls, hpstep, hprest]
  refine ⟨⟨?_, ?_, ?_⟩, ?_, ?_, ?_⟩
  · rw [hmain]
  · rw [hmain]
  · intro res h hres r hr
    rw [hmain] at hr
    have : r = .promise s.nextPromiseId := List.eq_of_mem_replicate hr
    subst this
    simpa [awaitResult] using hres
  · rw [hpmain]
  · rw [hpmain]
    simp
  · intro h
    rfl

/-- C1 witness: three callers from the fresh loader states. -/
theorem ensureFFmpeg_single_attempt_shared_handle_witness :
    (ensureCalls 3 initLoaderState).1.attempts = 1 ∧
    (ensureCalls 3 initLoaderState).2 =
      List.replicate 3 (.promise 0) ∧
    (pollEnsureCalls 3 initPollState).2 =
      .starts :: List.replicate 2 .waits := by
  have H := ensureFFmpeg_single_attempt_shared_handle 3 initLoaderState
    initPollState (by decide) rfl rfl rfl rfl rfl
  exact ⟨H.1.1, H.1.2.1, H.2.2.1⟩

/-- C2 (amended): in the promise-memoized loader, after a failed load
attempt every subsequent ensureFFmpeg call rejects immediately with the
same stored cause, with no state change and no new load attempt, until
resetFFmpegLoader runs; reset clears the stored cause and progress, and
the next ensureFFmpeg call starts a fresh load attempt.  The polling
loader variant, however, stores no cause at all: its catch block only
clears the loading flag, so the very next ensureFFmpeg call after a
failure begins a fresh load attempt with no reset required (or
available). -/
theorem ensureFFmpeg_sticky_error_until_reset (s : LoaderState) (e : String)
    (t : PollState) (hld : s.loaded = false) (htd : t.loaded = false) :
    ensureFFmpeg (loadFail s e) = (loadFail s e, .thrown e) ∧
    (loadFail s e).attempts = s.attempts ∧
    (resetFFmpegLoader (loadFail s e)).error = none ∧
    (resetFFmpegLoader (loadFail s e)).lastProgress = 0 ∧
    (ensureFFmpeg (resetFFmpegLoader (loadFail s e))).2 =
      .promise s.nextPromiseId ∧
    (ensureFFmpeg (resetFFmpegLoader (loadFail s e))).1.attempts =
      s.attempts + 1 ∧
    (pollEnsureFFmpeg (pollLoadFail t)).2 = .starts ∧
    (pollEnsureFFmpeg (pollLoadFail t)).1.attempts = t.attempts + 1 := by
  obtain ⟨f, lp, ld, er, pr, a, np⟩ := s
  simp only at hld
  subst hld
  have hpoll := pollEnsureFFmpeg_fresh
    (show (pollLoadFail t).loaded = false from htd) rfl
  refine ⟨?_, rfl, rfl, rfl, rfl, rfl, ?_, ?_⟩
  · cases f <;> rfl
  · rw [hpoll]
  · rw [hpoll]
    rfl

/-- C2 witness: a failure out of the fresh memoized state, then a reset;
and a failure out of the fresh polling state, followed directly by a new
attempt. -/
theorem ensureFFmpeg_sticky_error_until_reset_witness :
    ensureFFmpeg (loadFail initLoaderState "load failed") =
      (loadFail initLoaderState "load failed", .thrown "load failed") ∧
    (ensureFFmpeg
        (resetFFmpegLoader (loadFail initLoaderState "load failed"))).2 =
      .promise 0 ∧
    (pollEnsureFFmpeg (pollLoadFail initPollState)).2 = .starts := by
  have H := ensureFFmpeg_sticky_error_until_reset initLoaderState
    "load failed" initPollState rfl rfl
  exact ⟨H.1, H.2.2.2.2.1, H.2.2.2.2.2.2.1⟩

/-- C2 counterexample: in the polling loader a failed attempt leaves no
stored cause; starting from the fresh state, after the first call begins
the attempt and the attempt fails, the next ensureFFmpeg call does not
rethrow anything — it starts a second underlying load attempt, with no
reset involved. -/
theorem poll_loader_not_sticky_counterexample :
    (pollEnsureFFmpeg (pollLoadFail (pollEnsureFFmpeg initPollState).1)).2 =
      .starts ∧
    (pollEnsureFFmpeg (pollLoadFail
        (pollEnsureFFmpeg initPollState).1)).1.attempts = 2 := by
  decide

/-! ### Conversion pipeline
The engine's private storage (the Emscripten virtual filesystem) is a
name-to-bytes map; an engine invocation reads its named input slots and, if
the engine succeeds, writes its named output slot.  The engine itself is a
black-box oracle from the argument vector and the input contents to an
optional output. -/

abbrev Bytes := List Nat

def FS := String → Option Bytes

def emptyFS : FS := fun _ => none

def fsWrite (fs : FS) (name : String) (data : Bytes) : FS :=
  fun m => if m = name then some data else fs m

def fsDelete (fs : FS) (name : String) : FS :=
  fun m => if m = name then none else fs m

def fsRead (fs : FS) (name : String) : Option Bytes := fs name

structure ExecSpec where
  args : List String
  inputs : List String
  output : String

def Engine := List String → List Bytes → Option Bytes

/-- One engine invocation: read the named input slots (a missing input slot
fails the invocation), run the engine, write the output slot. -/
def runExec (eng : Engine) (spec : ExecSpec) (fs : FS) : Option FS :=
  match spec.inputs.mapM (fsRead fs) with
  | none => none
  | some datas =>
    (eng spec.args datas).map (fun out => fsWrite fs spec.output out)

structure Blob where
  mtype : String
  bytes : Bytes
deriving Repr, DecidableEq

inductive ConvStatus where
  | ok (blob : Blob)
  | err (msg : String)
deriving Repr, DecidableEq

structure ConvOut where
  status : ConvStatus
  fs : FS
  invocations : List (List String)

namespace FfmpegSvc

/-- MP4 invocation, ffmpegService.ts lines 114–122. -/
def mp4Exec : ExecSpec :=
  { args := ["-i", "input.webm", "-c:v", "libx264", "-preset", "fast",
             "-crf", "22", "-c:a", "aac", "-b:a", "128k", "output.mp4"],
    inputs := ["input.webm"], output := "output.mp4" }

/-- Palette-derivation invocation, ffmpegService.ts lines 158–162. -/
def gifPaletteExec : ExecSpec :=
  { args := ["-i", "input.webm", "-vf",
             "fps=15,scale=640:-1:flags=lanczos,palettegen", "palette.png"],
    inputs := ["input.webm"], output := "palette.png" }

/-- Palette-application invocation, ffmpegService.ts lines 165–170. -/
def gifApplyExec : ExecSpec :=
  { args := ["-i", "input.webm", "-i", "palette.png", "-filter_complex",
             "fps=15,scale=640:-1:flags=lanczos[x];[x][1:v]paletteuse",
             "output.gif"],
    inputs := ["input.webm", "palette.png"], output := "output.gif" }

/-- convertWebmToMP4 (ffmpegService.ts lines 101–139): write the input
slot, run one invocation, read the output, delete input and output slots.
The catch block only rethrows, so on a failed invocation no cleanup runs
and the storage is returned as it stood at the failure. -/
def convertWebmToMP4 (eng : Engine) (fs0 : FS) (webm : Bytes) : ConvOut :=
  let fs1 := fsWrite fs0 "input.webm" webm
  match runExec eng mp4Exec fs1 with
  | none => ⟨.err "mp4 conversion failed", fs1, [mp4Exec.args]⟩
  | some fs2 =>
    match fsRead fs2 "output.mp4" with
    | none => ⟨.err "read output failed", fs2, [mp4Exec.args]⟩
    | some data =>
      ⟨.ok ⟨"video/mp4", data⟩,
       fsDelete (fsDelete fs2 "input.webm") "output.mp4",
       [mp4Exec.args]⟩

/-- convertWebmToGIF (ffmpegService.ts lines 144–188): write the input
slot, derive the palette, apply the palette, read the output, delete the
input, palette and output slots.  The catch block only rethrows, so on a
failed invocation no cleanup runs. -/
def convertWebmToGIF (eng : Engine) (fs0 : FS) (webm : Bytes) : ConvOut :=
  let fs1 := fsWrite fs0 "input.webm" webm
  match runExec eng gifPaletteExec fs1 with
  | none => ⟨.err "palette generation failed", fs1, [gifPaletteExec.args]⟩
  | some fs2 =>
    match runExec eng gifApplyExec fs2 with
    | none =>
      ⟨.err "gif conversion failed", fs2,
       [gifPaletteExec.args, gifApplyExec.args]⟩
    | some fs3 =>
      match fsRead fs3 "output.gif" with
      | none =>
        ⟨.err "read output failed", fs3,
         [gifPaletteExec.args, gifApplyExec.args]⟩
      | some data =>
        ⟨.ok ⟨"image/gif", data⟩,
         fsDelete (fsDelete (fsDelete fs3 "input.webm") "palette.png")
           "output.gif",
         [gifPaletteExec.args, gifApplyExec.args]⟩

end FfmpegSvc

namespace FfmpegNew

/-- Palette-application invocation of ffmpegService-new.ts lines 174–179:
its first input is the slot named input.webv. -/
def gifApplyExecNew : ExecSpec :=
  { args := ["-i", "input.webv", "-i", "palette.png", "-filter_complex",
             "fps=15,scale=640:-1:flags=lanczos[x];[x][1:v]paletteuse",
             "output.gif"],
    inputs := ["input.webv", "palette.png"], output := "output.gif" }

/-- convertWebmToGIF (ffmpegService-new.ts lines 163–188): writes
input.webm, derives the palette from it, then issues the palette
application against input.webv. -/
def convertWebmToGIF (eng : Engine) (fs0 : FS) (webm : Bytes) : ConvOut :=
  let fs1 := fsWrite fs0 "input.webm" webm
  match runExec eng FfmpegSvc.gifPaletteExec fs1 with
  | none =>
    ⟨.err "palette generation failed", fs1, [FfmpegSvc.gifPaletteExec.args]⟩
  | some fs2 =>
    match runExec eng gifApplyExecNew fs2 with
    | none =>
      ⟨.err "gif conversion failed", fs2,
       [FfmpegSvc.gifPaletteExec.args, gifApplyExecNew.args]⟩
    | some fs3 =>
      match fsRead fs3 "output.gif" with
      | none =>
        ⟨.err "read output failed", fs3,
         [FfmpegSvc.gifPaletteExec.args, gifApplyExecNew.args]⟩
      | some data =>
        ⟨.ok ⟨"image/gif", data⟩,
         fsDelete (fsDelete (fsDelete fs3 "input.webm") "palette.png")
           "output.gif",
         [FfmpegSvc.gifPaletteExec.args, gifApplyExecNew.args]⟩

end FfmpegNew

/-- An engine oracle that fails every invocation. -/
def engFailAll : Engine := fun _ _ => none

/-- An engine oracle that succeeds on every invocation whose input slots
all exist, producing a marker byte followed by the concatenated inputs. -/
def engTotal : Engine := fun _ datas => some (1 :: datas.flatten)

theorem runExec_eq_some {eng : Engine} {spec : ExecSpec} {fs fs2 : FS}
    (h : runExec eng spec fs = some fs2) :
    ∃ out, fs2 = fsWrite fs spec.output out := by
  unfold runExec at h
  cases hm : spec.inputs.mapM (fsRead fs) with
  | none => rw [hm] at h; cases h
  | some datas =>
    rw [hm] at h
    simp only [] at h
    cases he : eng spec.args datas with
    | none => rw [he] at h; cases h
    | some out =>
      rw [he] at h
      simp only [Option.map_some', Option.some.injEq] at h
      exact ⟨out, h.symm⟩

theorem mp4_run_none {eng : Engine} {fs0 : FS} {webm : Bytes}
    (hr : runExec eng FfmpegSvc.mp4Exec (fsWrite fs0 "input.webm" webm) =
      none) :
    FfmpegSvc.convertWebmToMP4 eng fs0 webm =
      ⟨.err "mp4 conversion failed", fsWrite fs0 "input.webm" webm,
       [FfmpegSvc.mp4Exec.args]⟩ := by
  unfold FfmpegSvc.convertWebmToMP4
  simp only []
  rw [hr]

theorem mp4_read_none {eng : Engine} {fs0 : FS} {webm : Bytes} {fs2 : FS}
    (hr : runExec eng FfmpegSvc.mp4Exec (fsWrite fs0 "input.webm" webm) =
      some fs2)
    (ho : fsRead fs2 "output.mp4" = none) :
    FfmpegSvc.convertWebmToMP4 eng fs0 webm =
      ⟨.err "read output failed", fs2, [FfmpegSvc.mp4Exec.args]⟩ := by
  unfold FfmpegSvc.convertWebmToMP4
  simp only []
  rw [hr]
  simp only []
  rw [ho]

theorem mp4_read_some {eng : Engine} {fs0 : FS} {webm : Bytes} {fs2 : FS}
    {data : Bytes}
    (hr : runExec eng FfmpegSvc.mp4Exec (fsWrite fs0 "input.webm" webm) =
      some fs2)
    (ho : fsRead fs2 "output.mp4" = some data) :
    FfmpegSvc.convertWebmToMP4 eng fs0 webm =
      ⟨.ok ⟨"video/mp4", data⟩,
       fsDelete (fsDelete fs2 "input.webm") "output.mp4",
       [FfmpegSvc.mp4Exec.args]⟩ := by
  unfold FfmpegSvc.convertWebmToMP4
  simp only []
  rw [hr]
  simp only []
  rw [ho]

theorem gif_run1_none {eng : Engine} {fs0 : FS} {webm : Bytes}
    (hr : runExec eng FfmpegSvc.gifPaletteExec
        (fsWrite fs0 "input.webm" webm) = none) :
    FfmpegSvc.convertWebmToGIF eng fs0 webm =
      ⟨.err "palette generation failed", fsWrite fs0 "input.webm" webm,
       [FfmpegSvc.gifPaletteExec.args]⟩ := by
  unfold FfmpegSvc.convertWebmToGIF
  simp only []
  rw [hr]

theorem gif_run2_none {eng : Engine} {fs0 : FS} {webm : Bytes} {fs2 : FS}
    (hr : runExec eng FfmpegSvc.gifPaletteExec
        (fsWrite fs0 "input.webm" webm) = some fs2)
    (hr2 : runExec eng FfmpegSvc.gifApplyExec fs2 = none) :
    FfmpegSvc.convertWebmToGIF eng fs0 webm =
      ⟨.err "gif conversion failed", fs2,
       [FfmpegSvc.gifPaletteExec.args, FfmpegSvc.gifApplyExec.args]⟩ := by
  unfold FfmpegSvc.convertWebmToGIF
  simp only []
  rw [hr]
  simp only []
  rw [hr2]

theorem gif_read_none {eng : Engine} {fs0 : FS} {webm : Bytes}
    {fs2 fs3 : FS}
    (hr : runExec eng FfmpegSvc.gifPaletteExec
        (fsWrite fs0 "input.webm" webm) = some fs2)
    (hr2 : runExec eng FfmpegSvc.gifApplyExec fs2 = some fs3)
    (ho : fsRead fs3 "output.gif" = none) :
    FfmpegSvc.convertWebmToGIF eng fs0 webm =
      ⟨.err "read output failed", fs3,
       [FfmpegSvc.gifPaletteExec.args, FfmpegSvc.gifApplyExec.args]⟩ := by
  unfold FfmpegSvc.convertWebmToGIF
  simp only []
  rw [hr]
  simp only []
  rw [hr2]
  simp only []
  rw [ho]

theorem gif_read_some {eng : Engine} {fs0 : FS} {webm : Bytes}
    {fs2 fs3 : FS} {data : Bytes}
    (hr : runExec eng FfmpegSvc.gifPaletteExec
        (fsWrite fs0 "input.webm" webm) = some fs2)
    (hr2 : runExec eng FfmpegSvc.gifApplyExec fs2 = some fs3)
    (ho : fsRead fs3 "output.gif" = some data) :
    FfmpegSvc.convertWebmToGIF eng fs0 webm =
      ⟨.ok ⟨"image/gif", data⟩,
       fsDelete (fsDelete (fsDelete fs3 "input.webm") "palette.png")
         "output.gif",
       [FfmpegSvc.gifPaletteExec.args, FfmpegSvc.gifApplyExec.args]⟩ := by
  unfold FfmpegSvc.convertWebmToGIF
  simp only []
  rw [hr]
  simp only []
  rw [hr2]
  simp only []
  rw [ho]

/-- C3 (amended): each conversion removes every storage slot it created on
successful completion and leaves every other slot unchanged, but on failure
of an engine invocation no cleanup runs: the input slot the call created is
still present in the engine storage when the call settles in an error. -/
theorem conversion_cleanup_on_success_leak_on_failure
    (eng : Engine) (fs0 : FS) (webm : Bytes) :
    (∀ b, (FfmpegSvc.convertWebmToMP4 eng fs0 webm).status = .ok b →
       (FfmpegSvc.convertWebmToMP4 eng fs0 webm).fs "input.webm" = none ∧
       (FfmpegSvc.convertWebmToMP4 eng fs0 webm).fs "output.mp4" = none ∧
       ∀ m, m ≠ "input.webm" → m ≠ "output.mp4" →
         (FfmpegSvc.convertWebmToMP4 eng fs0 webm).fs m = fs0 m) ∧
    (∀ e, (FfmpegSvc.convertWebmToMP4 eng fs0 webm).status = .err e →
       (FfmpegSvc.convertWebmToMP4 eng fs0 webm).fs "input.webm" =
         some webm) ∧
    (∀ b, (FfmpegSvc.convertWebmToGIF eng fs0 webm).status = .ok b →
       (FfmpegSvc.convertWebmToGIF eng fs0 webm).fs "input.webm" = none ∧
       (FfmpegSvc.convertWebmToGIF eng fs0 webm).fs "palette.png" = none ∧
       (FfmpegSvc.convertWebmToGIF eng fs0 webm).fs "output.gif" = none ∧
       ∀ m, m ≠ "input.webm" → m ≠ "palette.png" → m ≠ "output.gif" →
         (FfmpegSvc.convertWebmToGIF eng fs0 webm).fs m = fs0 m) ∧
    (∀ e, (FfmpegSvc.convertWebmToGIF eng fs0 webm).status = .err e →
       (FfmpegSvc.convertWebmToGIF eng fs0 webm).fs "input.webm" =
         some webm) := by
  refine ⟨?_, ?_, ?_, ?_⟩
  · intro b hb
    cases hr : runExec eng FfmpegSvc.mp4Exec (fsWrite fs0 "input.webm" webm) with
    | none => rw [mp4_run_none hr] at hb; cases hb
    | some fs2 =>
      cases ho : fsRead fs2 "output.mp4" with
      | none => rw [mp4_read_none hr ho] at hb; cases hb
      | some data =>
        obtain ⟨out, rfl⟩ := runExec_eq_some hr
        rw [mp4_read_some hr ho]
        refine ⟨rfl, rfl, ?_⟩
        intro m h1 h2
        simp [fsDelete, fsWrite, FfmpegSvc.mp4Exec, h1, h2]
  · intro e he
    cases hr : runExec eng FfmpegSvc.mp4Exec (fsWrite fs0 "input.webm" webm) with
    | none => rw [mp4_run_none hr]; rfl
    | some fs2 =>
      cases ho : fsRead fs2 "output.mp4" with
      | none =>
        obtain ⟨out, rfl⟩ := runExec_eq_some hr
        rw [mp4_read_none hr ho]
        rfl
      | some data => rw [mp4_read_some hr ho] at he; cases he
  · intro b hb
    cases hr : runExec eng FfmpegSvc.gifPaletteExec
        (fsWrite fs0 "input.webm" webm) with
    | none => rw [gif_run1_none hr] at hb; cases hb
    | some fs2 =>
      cases hr2 : runExec eng FfmpegSvc.gifApplyExec fs2 with
      | none => rw [gif_run2_none hr hr2] at hb; cases hb
      | some fs3 =>
        cases ho : fsRead fs3 "output.gif" with
        | none => rw [gif_read_none hr hr2 ho] at hb; cases hb
        | some data =>
          obtain ⟨pal, rfl⟩ := runExec_eq_some hr
          obtain ⟨out, rfl⟩ := runExec_eq_some hr2
          rw [gif_read_some hr hr2 ho]
          refine ⟨rfl, rfl, rfl, ?_⟩
          intro m h1 h2 h3
          simp [fsDelete, fsWrite, FfmpegSvc.gifPaletteExec,
            FfmpegSvc.gifApplyExec, h1, h2, h3]
  · intro e he
    cases hr : runExec eng FfmpegSvc.gifPaletteExec
        (fsWrite fs0 "input.webm" webm) with
    | none => rw [gif_run1_none hr]; rfl
    | some fs2 =>
      cases hr2 : runExec eng FfmpegSvc.gifApplyExec fs2 with
      | none =>
        obtain ⟨pal, rfl⟩ := runExec_eq_some hr
        rw [gif_run2_none hr hr2]
        rfl
      | some fs3 =>
        cases ho : fsRead fs3 "output.gif" with
        | none =>
          obtain ⟨pal, rfl⟩ := runExec_eq_some hr
          obtain ⟨out, rfl⟩ := runExec_eq_some hr2
          rw [gif_read_none hr hr2 ho]
          rfl
        | some data => rw [gif_read_some hr hr2 ho] at he; cases he

/-- C3 counterexample: with an engine whose first invocation fails, the GIF
conversion settles in an error while the input slot it created is still
present in the engine storage, refuting slot removal on failure. -/
theorem conversion_cleanup_counterexample :
    (FfmpegSvc.convertWebmToGIF engFailAll emptyFS [1, 2, 3]).status =
      .err "palette generation failed" ∧
    (FfmpegSvc.convertWebmToGIF engFailAll emptyFS [1, 2, 3]).fs
      "input.webm" = some [1, 2, 3] :=
  ⟨rfl, rfl⟩

/-- C3 witness: a succeeding run removes its slots, a failing run leaks its
input slot. -/
theorem conversion_cleanup_witness :
    (FfmpegSvc.convertWebmToGIF engTotal emptyFS [9]).fs "input.webm" =
      none ∧
    (FfmpegSvc.convertWebmToGIF engFailAll emptyFS [9]).fs "input.webm" =
      some [9] := by
  have H1 :=
    (conversion_cleanup_on_success_leak_on_failure engTotal emptyFS [9]).2.2.1
      ⟨"image/gif", [1, 9, 1, 9]⟩ rfl
  have H2 :=
    (conversion_cleanup_on_success_leak_on_failure engFailAll emptyFS
        [9]).2.2.2 "palette generation failed" rfl
  exact ⟨H1.1, H2⟩

/-- C5: the palette-application invocation of ffmpegService-new.ts reads
the slot input.webv, which is never written (the input was written to
input.webm); even with an engine that succeeds on every invocation whose
input slots exist, that conversion fails at the second invocation and
returns no asset, while the ffmpegService.ts version under the same engine
issues exactly the two invocations in order and returns an image/gif asset
with the input and palette slots removed. -/
theorem convertWebmToGIF_new_input_typo :
    (FfmpegNew.convertWebmToGIF engTotal emptyFS [9]).status =
      .err "gif conversion failed" ∧
    (FfmpegNew.convertWebmToGIF engTotal emptyFS [9]).fs "input.webv" =
      none ∧
    (FfmpegNew.convertWebmToGIF engTotal emptyFS [9]).fs "input.webm" =
      some [9] ∧
    (FfmpegSvc.convertWebmToGIF engTotal emptyFS [9]).status =
      .ok ⟨"image/gif", [1, 9, 1, 9]⟩ ∧
    (FfmpegSvc.convertWebmToGIF engTotal emptyFS [9]).invocations =
      [FfmpegSvc.gifPaletteExec.args, FfmpegSvc.gifApplyExec.args] ∧
    (FfmpegSvc.convertWebmToGIF engTotal emptyFS [9]).fs "input.webm" =
      none ∧
    (FfmpegSvc.convertWebmToGIF engTotal emptyFS [9]).fs "palette.png" =
      none :=
  ⟨rfl, rfl, rfl, rfl, rfl, rfl, rfl⟩

/-! ### Frame-source locator
findFigmaCanvas (contentScript.ts lines 5–22, with identical copies inside
the injected recording scripts) and the canvas selection of
captureFullDesign (fullCanvasCapture.ts lines 46–59).  Array.prototype.sort
is stable, so the JS `sort(desc-area)[0]` is the head of a stable merge
sort under the descending-area comparator. -/

structure Canvas where
  id : Nat
  width : Nat
  height : Nat
deriving Repr, DecidableEq

def area (c : Canvas) : Nat := c.width * c.height

/-- The comparator `(a, b) => areaB - areaA`: a may stay before b exactly
when `area b ≤ area a`. -/
def canvasLe (a b : Canvas) : Bool := area b ≤ area a

/-- findFigmaCanvas: null when there are no candidates, otherwise the head
of the stable descending-area sort. -/
def findFigmaCanvas (cs : List Canvas) : Option Canvas :=
  (cs.mergeSort canvasLe).head?

/-- The canvas selection of captureFullDesign: same maximal candidate, but
additionally rejected when it has zero width or zero height. -/
def captureSelect (cs : List Canvas) : Option Canvas :=
  match (cs.mergeSort canvasLe).head? with
  | none => none
  | some c => if c.width = 0 || c.height = 0 then none else some c

theorem canvasLe_trans (a b c : Canvas) :
    canvasLe a b → canvasLe b c → canvasLe a c := by
  simp only [canvasLe, decide_eq_true_eq]
  omega

theorem canvasLe_total (a b : Canvas) : canvasLe a b || canvasLe b a := by
  simp only [canvasLe, Bool.or_eq_true, decide_eq_true_eq]
  omega

theorem findFigmaCanvas_max {cs : List Canvas} {c : Canvas}
    (h : findFigmaCanvas cs = some c) :
    c ∈ cs ∧ ∀ d ∈ cs, area d ≤ area c := by
  unfold findFigmaCanvas at h
  have hperm := List.mergeSort_perm cs canvasLe
  have hsorted := List.sorted_mergeSort canvasLe_trans canvasLe_total cs
  cases hms : cs.mergeSort canvasLe with
  | nil => rw [hms] at h; cases h
  | cons x xs =>
    rw [hms] at h
    simp only [List.head?_cons, Option.some.injEq] at h
    subst h
    rw [hms] at hperm hsorted
    constructor
    · exact hperm.mem_iff.1 (List.mem_cons_self _ _)
    · intro d hd
      rcases List.mem_cons.1 (hperm.mem_iff.2 hd) with hdx | hdx
      · subst hdx; exact Nat.le_refl _
      · have := List.rel_of_pairwise_cons hsorted hdx
        simpa [canvasLe] using this

/-- C4 (amended): the locator returns the maximal-area candidate, with
ties broken by encounter order, and null exactly when the candidate set is
empty; it does not reject a zero-area maximal candidate — only the canvas
selection inside captureFullDesign additionally rejects zero-area, so the
full-design capture path never uses a zero-area source. -/
theorem locator_first_maximal_area :
    (findFigmaCanvas [] = none ∧ captureSelect [] = none) ∧
    (∀ cs c, findFigmaCanvas cs = some c →
       c ∈ cs ∧ ∀ d ∈ cs, area d ≤ area c) ∧
    (∀ l1 l2 c, (l1 ++ c :: l2).Nodup →
       (∀ d ∈ l1, area d < area c) → (∀ d ∈ l2, area d ≤ area c) →
       findFigmaCanvas (l1 ++ c :: l2) = some c) ∧
    (∀ cs c, captureSelect cs = some c → 0 < area c) ∧
    (∀ cs c, findFigmaCanvas cs = some c → c.width ≠ 0 → c.height ≠ 0 →
       captureSelect cs = some c) := by
  refine ⟨⟨by simp [findFigmaCanvas], by simp [captureSelect]⟩,
    fun cs c h => findFigmaCanvas_max h, ?_, ?_, ?_⟩
  · intro l1 l2 c hnd h1 h2
    have hperm := List.mergeSort_perm (l1 ++ c :: l2) canvasLe
    unfold findFigmaCanvas
    cases hms : (l1 ++ c :: l2).mergeSort canvasLe with
    | nil =>
      exfalso
      have := congrArg List.length hms
      simp at this
    | cons m rest =>
      have hm : findFigmaCanvas (l1 ++ c :: l2) = some m := by
        unfold findFigmaCanvas
        rw [hms]
        rfl
      obtain ⟨hmem, hmax⟩ := findFigmaCanvas_max hm
      simp only [List.head?_cons, Option.some.injEq]
      rcases List.mem_append.1 hmem with hm1 | hm2
      · exfalso
        have ha := h1 m hm1
        have hb := hmax c (by simp)
        omega
      · rcases List.mem_cons.1 hm2 with hmc | hm3
        · exact hmc
        · by_cases hmc : m = c
          · exact hmc
          · exfalso
            have hcm : canvasLe c m := by
              simp only [canvasLe, decide_eq_true_eq]
              exact h2 m hm3
            have hsubl : List.Sublist [c, m] (l1 ++ c :: l2) := by
              have hin : List.Sublist [c, m] (c :: l2) :=
                List.Sublist.cons₂ c (List.singleton_sublist.2 hm3)
              exact hin.trans (List.sublist_append_right l1 _)
            have hst := List.pair_sublist_mergeSort canvasLe_trans
              canvasLe_total hcm hsubl
            rw [hms] at hst
            have hnd2 : (m :: rest).Nodup := by
              rw [← hms]
              exact (List.Perm.nodup_iff hperm).2 hnd
            have hm_not : m ∉ rest := (List.nodup_cons.1 hnd2).1
            cases hst with
            | cons _ hsub2 =>
              exact hm_not (hsub2.subset (by simp))
            | cons₂ _ hsub2 =>
              exact hmc rfl
  · intro cs c h
    unfold captureSelect at h
    cases hms : (cs.mergeSort canvasLe).head? with
    | none => rw [hms] at h; cases h
    | some x =>
      rw [hms] at h
      simp only [] at h
      split at h
      · cases h
      · rename_i hcond
        simp only [Option.some.injEq] at h
        subst h
        simp only [Bool.or_eq_true, decide_eq_true_eq, not_or] at hcond
        have := Nat.mul_pos (Nat.pos_of_ne_zero hcond.1)
          (Nat.pos_of_ne_zero hcond.2)
        simpa [area] using this
  · intro cs c h hw hh
    unfold findFigmaCanvas at h
    unfold captureSelect
    rw [h]
    simp [hw, hh]

/-- C4 counterexample: a document whose single canvas has zero area — the
locator returns that canvas instead of NotFound. -/
theorem findFigmaCanvas_zero_area_counterexample :
    findFigmaCanvas [⟨0, 0, 0⟩] = some ⟨0, 0, 0⟩ := by
  simp [findFigmaCanvas]

/-- C4 witness: the spec's own concrete case, a 120×80 candidate before a
60×300 candidate: the 60×300 one is selected. -/
theorem locator_first_maximal_area_witness :
    findFigmaCanvas [⟨0, 120, 80⟩, ⟨1, 60, 300⟩] = some ⟨1, 60, 300⟩ ∧
    captureSelect [⟨0, 120, 80⟩, ⟨1, 60, 300⟩] = some ⟨1, 60, 300⟩ := by
  have H1 := locator_first_maximal_area.2.2.1 [⟨0, 120, 80⟩] []
    ⟨1, 60, 300⟩ (by decide) (by decide) (by decide)
  have H2 := locator_first_maximal_area.2.2.2.2 [⟨0, 120, 80⟩, ⟨1, 60, 300⟩]
    ⟨1, 60, 300⟩ H1 (by decide) (by decide)
  exact ⟨H1, H2⟩

/-! ### Viewport-fitting strategy chain (fullCanvasCapture.ts lines 63–215)
The environment records which strategy targets exist and which defended
operations raise; the chain is the literal control flow: strategy 1 (fit
button click, try/catch), strategy 2 (Shift+1 key events, try/catch),
strategy 3 (geometric zoom-input write, guarded by element presence),
then the no-op fallback.  Strategies 1–3 schedule startRecording after a
1500 ms settle timeout; the fallback calls startRecording directly. -/

structure FitEnv where
  buttonFound : Bool
  buttonIsElem : Bool
  clickThrows : Bool
  dispatchThrows : Bool
  designElemsFound : Bool
  zoomInputFound : Bool
deriving Repr, DecidableEq

inductive Strategy where
  | fitButton
  | shortcut
  | geometric
deriving Repr, DecidableEq

structure FitResult where
  attempted : List Strategy
  succeeded : Option Strategy
  settleDelayMs : Nat
  recordingStarted : Bool
deriving Repr, DecidableEq

def fitPhase (env : FitEnv) : FitResult :=
  if env.buttonFound && env.buttonIsElem && !env.clickThrows then
    ⟨[.fitButton], some .fitButton, 1500, true⟩
  else
    let a1 : List Strategy :=
      if env.buttonFound && env.buttonIsElem then [.fitButton] else []
    if !env.dispatchThrows then
      ⟨a1 ++ [.shortcut], some .shortcut, 1500, true⟩
    else if env.designElemsFound && env.zoomInputFound then
      ⟨a1 ++ [.shortcut, .geometric], some .geometric, 1500, true⟩
    else
      ⟨a1 ++ [.shortcut], none, 0, true⟩

/-- C6 (amended): the fitting phase tries its strategies in the fixed
order fit-button, shortcut, geometric, no-op fallback; it stops at the
first success, strategies past the successful one are never attempted,
individual strategy failures are swallowed and the phase always proceeds
to start recording; the 1500 ms settle delay elapses when one of the
three strategies succeeds, but the no-op fallback starts recording
immediately with no settle delay. -/
theorem fitPhase_fixed_order_first_success (env : FitEnv) :
    (fitPhase env).recordingStarted = true ∧
    ((fitPhase env).succeeded = some .fitButton ↔
       (env.buttonFound && env.buttonIsElem && !env.clickThrows) = true) ∧
    ((fitPhase env).succeeded = some .shortcut ↔
       (env.buttonFound && env.buttonIsElem && !env.clickThrows) = false ∧
       env.dispatchThrows = false) ∧
    ((fitPhase env).succeeded = some .geometric ↔
       (env.buttonFound && env.buttonIsElem && !env.clickThrows) = false ∧
       env.dispatchThrows = true ∧
       (env.designElemsFound && env.zoomInputFound) = true) ∧
    ((fitPhase env).succeeded = some .fitButton →
       (fitPhase env).attempted = [.fitButton]) ∧
    ((fitPhase env).succeeded = some .shortcut →
       (fitPhase env).attempted = [.fitButton, .shortcut] ∨
       (fitPhase env).attempted = [.shortcut]) ∧
    ((fitPhase env).succeeded = some .geometric →
       (fitPhase env).attempted = [.fitButton, .shortcut, .geometric] ∨
       (fitPhase env).attempted = [.shortcut, .geometric]) ∧
    ((fitPhase env).succeeded = none →
       Strategy.geometric ∉ (fitPhase env).attempted) ∧
    (∀ st, (fitPhase env).succeeded = some st →
       (fitPhase env).settleDelayMs = 1500) ∧
    ((fitPhase env).succeeded = none → (fitPhase env).settleDelayMs = 0) := by
  obtain ⟨bf, bi, ct, dt, de, zi⟩ := env
  cases bf <;> cases bi <;> cases ct <;> cases dt <;> cases de <;> cases zi
    <;> decide

/-- C6 witness: with the fit button present and clickable, the chain stops
at strategy 1 with the settle delay. -/
theorem fitPhase_fixed_order_first_success_witness :
    (fitPhase ⟨true, true, false, false, true, true⟩).succeeded =
      some .fitButton ∧
    (fitPhase ⟨true, true, false, false, true, true⟩).attempted =
      [.fitButton] ∧
    (fitPhase ⟨true, true, false, false, true, true⟩).settleDelayMs =
      1500 := by
  have H := fitPhase_fixed_order_first_success
    ⟨true, true, false, false, true, true⟩
  have h1 := (H.2.1).2 (by decide)
  exact ⟨h1, H.2.2.2.2.1 h1, H.2.2.2.2.2.2.2.2.1 Strategy.fitButton h1⟩

/-- C6 counterexample: when no strategy succeeds (no fit button, the key
dispatch raises, no design elements), recording starts through the no-op
fallback with zero settle delay, refuting the fixed settle delay always
elapsing. -/
theorem fitPhase_no_delay_counterexample :
    (fitPhase ⟨false, false, false, true, false, false⟩).settleDelayMs = 0 ∧
    (fitPhase ⟨false, false, false, true, false, false⟩).recordingStarted =
      true := by
  decide

/-! ### Chunk delivery and recording finalization -/

/-- The ondataavailable accumulation (contentScript.ts lines 64–71, with
identical handlers in the injected recording scripts): each non-empty
fragment is pushed onto `chunks` in arrival order; empty fragments are
discarded. -/
def deliveredChunks (frags : List Bytes) : List Bytes :=
  frags.foldl (fun acc d => if d.length > 0 then acc ++ [d] else acc) []

/-- Blob concatenation on finalize (`new Blob(chunks)`). -/
def concatChunks (chunks : List Bytes) : Bytes := chunks.flatten

theorem deliveredChunks_foldl (frags : List Bytes) (acc : List Bytes) :
    frags.foldl (fun acc d => if d.length > 0 then acc ++ [d] else acc)
      acc = acc ++ frags.filter (fun d => d.length > 0) := by
  induction frags generalizing acc with
  | nil => simp
  | cons d rest ih =>
    simp only [List.foldl_cons, List.filter_cons]
    by_cases hd : d.length > 0
    · simp [hd, ih]
    · simp [hd, ih]

/-- C7: fragments are appended in arrival order with empty fragments
discarded, so the finalized byte layout is the concatenation of the
delivered fragments; in particular fragments A, B, C delivered in that
order finalize to A‖B‖C. -/
theorem chunk_concatenation_order_preserving :
    (∀ frags : List Bytes,
       deliveredChunks frags = frags.filter (fun d => d.length > 0)) ∧
    (∀ frags : List Bytes,
       concatChunks (deliveredChunks frags) = concatChunks frags) ∧
    (∀ A B C : Bytes,
       concatChunks (deliveredChunks [A, B, C]) = A ++ B ++ C) := by
  have hfilter : ∀ frags : List Bytes,
      deliveredChunks frags = frags.filter (fun d => d.length > 0) := by
    intro frags
    simpa using deliveredChunks_foldl frags []
  have hjoin : ∀ frags : List Bytes,
      concatChunks (deliveredChunks frags) = concatChunks frags := by
    intro frags
    rw [hfilter]
    simp only [concatChunks]
    induction frags with
    | nil => rfl
    | cons d rest ih =>
      by_cases hd : d.length > 0
      · simp [List.filter_cons, hd, ih]
      · have hnil : d = [] := List.eq_nil_of_length_eq_zero (by omega)
        subst hnil
        simp [List.filter_cons, ih]
  refine ⟨hfilter, hjoin, ?_⟩
  intro A B C
  rw [hjoin]
  simp [concatChunks, List.append_assoc]

inductive FinalizeOutcome where
  | failed (e : String)
  | completed (blob : Blob)
deriving Repr, DecidableEq

/-- Finalize in captureFullDesign's onstop handler (fullCanvasCapture.ts
lines 236–267): concatenate the chunks as video/webm and reject a
zero-size blob with the empty-recording error. -/
def fullCaptureFinalize (chunks : List Bytes) : FinalizeOutcome :=
  let blob : Blob := ⟨"video/webm", concatChunks chunks⟩
  if blob.bytes.length = 0 then .failed "Recording produced empty file"
  else .completed blob

/-- Finalize in initializeContentRecorder's onstop handler
(contentScript.ts lines 73–76): resolve the concatenated blob under the
negotiated mime type — no zero-size check.  The onstop handler of the
basic injected recording script (part_004 lines 106–125) likewise
downloads and resolves without a size check. -/
def contentFinalize (mimeType : String) (chunks : List Bytes) :
    FinalizeOutcome :=
  .completed ⟨mimeType, concatChunks chunks⟩

/-- C8 (amended): the full-design capture finalization concatenates the
chunks, tags them video/webm, fails on a zero-size asset and completes
otherwise; but the basic recording paths finalize by resolving the
concatenated asset under the negotiated container type with no zero-size
check, so a zero-size recording completes there instead of failing. -/
theorem finalize_zero_size_check_only_full_capture :
    (∀ chunks, concatChunks chunks = [] →
       fullCaptureFinalize chunks =
         .failed "Recording produced empty file") ∧
    (∀ chunks, concatChunks chunks ≠ [] →
       fullCaptureFinalize chunks =
         .completed ⟨"video/webm", concatChunks chunks⟩) ∧
    (∀ mt chunks, contentFinalize mt chunks =
       .completed ⟨mt, concatChunks chunks⟩) := by
  refine ⟨?_, ?_, fun mt chunks => rfl⟩
  · intro chunks h
    simp [fullCaptureFinalize, h]
  · intro chunks h
    have : (concatChunks chunks).length ≠ 0 := by
      simpa using fun hc => h (List.length_eq_zero.1 hc)
    simp [fullCaptureFinalize, this]

/-- C8 witness: an empty chunk list fails the full-design path and a
non-empty one completes it; the basic path always completes. -/
theorem finalize_zero_size_check_only_full_capture_witness :
    fullCaptureFinalize [] = .failed "Recording produced empty file" ∧
    fullCaptureFinalize [[7]] = .completed ⟨"video/webm", [7]⟩ ∧
    contentFinalize "video/webm;codecs=vp9" [[7]] =
      .completed ⟨"video/webm;codecs=vp9", [7]⟩ := by
  have H := finalize_zero_size_check_only_full_capture
  exact ⟨H.1 [] rfl, H.2.1 [[7]] (by decide), H.2.2 "video/webm;codecs=vp9"
    [[7]]⟩

/-- C8 counterexample: the basic recording path finalizes a zero-size
recording as completed (it resolves and downloads the empty asset) instead
of transitioning to failed. -/
theorem finalize_empty_completes_counterexample :
    contentFinalize "video/webm" [] = .completed ⟨"video/webm", []⟩ ∧
    (Blob.mk "video/webm" []).bytes.length = 0 := by
  exact ⟨rfl, rfl⟩

/-! ### Capture entry point (recording service, part_005 lines 275–295) -/

structure RecordingOptions where
  format : String
  frameRate : Nat
  duration : Option Nat
  captureFullSize : Option Bool
deriving Repr, DecidableEq

inductive CaptureDispatch where
  | fullCanvas (opts : RecordingOptions)
  | basicCanvas (opts : RecordingOptions)
deriving Repr, DecidableEq

/-- startCapture: defaults the duration (the JS `||` treats both 0 and
undefined as absent), defaults captureFullSize to false (`?? false`),
unconditionally overwrites format with webm, then dispatches to the
full-canvas or the basic capture. -/
def startCapture (o : RecordingOptions) : CaptureDispatch :=
  let dur : Nat :=
    match o.duration with
    | none => 5000
    | some d => if d = 0 then 5000 else d
  let cfs : Bool :=
    match o.captureFullSize with
    | none => false
    | some b => b
  let o1 : RecordingOptions :=
    { o with duration := some dur, captureFullSize := some cfs,
             format := "webm" }
  if cfs then .fullCanvas o1 else .basicCanvas o1

def dispatchOptions : CaptureDispatch → RecordingOptions
  | .fullCanvas o => o
  | .basicCanvas o => o

/-- Mime negotiation of the basic injected recording script (part_005
lines 126–133). -/
def negotiateMime (format : String) (vp9Supported mp4Supported : Bool) :
    String :=
  if format = "webm" && vp9Supported then "video/webm;codecs=vp9"
  else if format = "mp4" && mp4Supported then "video/mp4"
  else "video/webm"

/-- The basic injected script's onstop handler posts the conversion
request (the only path into the conversion engine from a capture) exactly
for non-webm formats (part_005 lines 157–185). -/
def postsConversionRequest (format : String) : Bool := format != "webm"

/-- The fixed recorder mime of the full-design capture path
(fullCanvasCapture.ts line 224). -/
def fullDesignRecorderMime : String := "video/webm;codecs=vp9"

/-- JS String.prototype.startsWith: the first characters of s are exactly
the characters of p. -/
def strStartsWith (s p : String) : Bool :=
  s.data.take p.data.length = p.data

/-- C9: startCapture unconditionally overwrites the requested format with
webm before dispatching, so whatever target format was requested, the
dispatched options carry webm, mime negotiation yields a WebM container,
no conversion request is posted from the capture path, and the full-design
path records WebM by construction. -/
theorem startCapture_forces_webm (o : RecordingOptions) (vp9 mp4 : Bool) :
    (dispatchOptions (startCapture o)).format = "webm" ∧
    (negotiateMime (dispatchOptions (startCapture o)).format vp9 mp4 =
       "video/webm;codecs=vp9" ∨
     negotiateMime (dispatchOptions (startCapture o)).format vp9 mp4 =
       "video/webm") ∧
    postsConversionRequest (dispatchOptions (startCapture o)).format =
      false ∧
    strStartsWith fullDesignRecorderMime "video/webm" = true := by
  have hfm : (dispatchOptions (startCapture o)).format = "webm" := by
    obtain ⟨fmt, fr, dur, cfs⟩ := o
    simp only [startCapture]
    rcases cfs with _ | b
    · rfl
    · cases b <;> rfl
  refine ⟨hfm, ?_, ?_, by decide⟩
  · rw [hfm]
    cases vp9 <;> simp [negotiateMime]
  · rw [hfm]
    decide

/-! ### Content-script download relay (contents/figma.ts lines 13–95) -/

structure VideoMessage where
  msgType : String
  dataUrl : String
  filename : String
deriving Repr, DecidableEq

inductive BgResponse where
  | runtimeError
  | failure
  | success
deriving Repr, DecidableEq

inductive RelayAction where
  | sendToBackground (dataUrl filename : String)
  | fallback (dataUrl filename : String)
deriving Repr, DecidableEq

/-- The window message listener of contents/figma.ts: a well-formed
fullsize-video message whose data URL does not start with data:video/webm
goes straight to the in-page fallback download; otherwise the payload is
relayed to the background, and the fallback also runs when the background
reports a runtime error or a non-success response. -/
def handleFullsizeVideo (m : VideoMessage) (resp : BgResponse) :
    List RelayAction :=
  if m.msgType = "FIGMA_FLOW_FULLSIZE_VIDEO" && m.dataUrl != "" &&
      m.filename != "" then
    if !(strStartsWith m.dataUrl "data:video/webm") then
      [.fallback m.dataUrl m.filename]
    else
      match resp with
      | .runtimeError =>
        [.sendToBackground m.dataUrl m.filename,
         .fallback m.dataUrl m.filename]
      | .failure =>
        [.sendToBackground m.dataUrl m.filename,
         .fallback m.dataUrl m.filename]
      | .success => [.sendToBackground m.dataUrl m.filename]
  else []

/-- The ordered DOM steps of fallbackDownload (contents/figma.ts lines
63–86). -/
def fallbackSteps : List String :=
  ["createAnchor", "setHref", "setDownload", "append", "click"]

/-- fallbackDownload runs its steps in order inside a try/catch; if the
step at index k raises, the later steps are skipped but the catch swallows
the exception, so the call always returns normally (second component). -/
def fallbackDownload (throwsAt : Option Nat) : List String × Bool :=
  match throwsAt with
  | none => (fallbackSteps, true)
  | some k => (fallbackSteps.take k, true)

/-- C10: on an invalid payload the listener falls back to the in-page
download of the same payload; on a background runtime error or a
non-success response it relays first and then falls back with the same
payload; and the fallback download itself swallows any exception one of
its steps raises. -/
theorem fullsize_video_fallback (m : VideoMessage) (resp : BgResponse)
    (hty : m.msgType = "FIGMA_FLOW_FULLSIZE_VIDEO")
    (hdu : m.dataUrl ≠ "") (hfn : m.filename ≠ "") :
    (strStartsWith m.dataUrl "data:video/webm" = false →
       handleFullsizeVideo m resp = [.fallback m.dataUrl m.filename]) ∧
    (strStartsWith m.dataUrl "data:video/webm" = true →
       (resp = .runtimeError ∨ resp = .failure →
          handleFullsizeVideo m resp =
            [.sendToBackground m.dataUrl m.filename,
             .fallback m.dataUrl m.filename]) ∧
       (resp = .success →
          handleFullsizeVideo m resp =
            [.sendToBackground m.dataUrl m.filename])) ∧
    (∀ k, (fallbackDownload k).2 = true) := by
  refine ⟨?_, ?_, ?_⟩
  · intro hsw
    simp [handleFullsizeVideo, hty, hdu, hfn, hsw]
  · intro hsw
    constructor
    · rintro (rfl | rfl) <;>
        simp [handleFullsizeVideo, hty, hdu, hfn, hsw]
    · rintro rfl
      simp [handleFullsizeVideo, hty, hdu, hfn, hsw]
  · intro k
    cases k <;> rfl

/-- C10 witness: a payload whose data URL is not a WebM data URL triggers
the in-page fallback with the same payload, and a fallback whose click
step raises still returns normally. -/
theorem fullsize_video_fallback_witness :
    handleFullsizeVideo ⟨"FIGMA_FLOW_FULLSIZE_VIDEO", "data:text/plain,x",
        "clip.webm"⟩ .success =
      [.fallback "data:text/plain,x" "clip.webm"] ∧
    (fallbackDownload (some 4)).2 = true := by
  have H := fullsize_video_fallback
    ⟨"FIGMA_FLOW_FULLSIZE_VIDEO", "data:text/plain,x", "clip.webm"⟩
    .success rfl (by decide) (by decide)
  exact ⟨H.1 (by decide), H.2.2 (some 4)⟩

end FlowCapture
